import Mathlib

/-!
Verification of the multi-persona feedback orchestration backend.

The definitions below are a shallow embedding of the Python sources:
  * `api/personas/definitions.py` — the persona registry,
  * `api/models/request.py` and `api/models/response.py` — the pydantic data model,
  * `api/agents/persona_agent.py` — the fan-out orchestrator (batch and streaming),
  * `api/routers/feedback.py` — the transport adapter (validation, frame
    normalization, SSE framing).

The Model Gateway (`feedback_agent.run` wrapped by `get_persona_feedback`) is an
external collaborator: it is modelled as an explicit parameter
`invoke : Persona → List FrameData → Option String → Except String PersonaFeedback`
(success returns a structured feedback value, failure carries an error detail
string, mirroring "returns a structured result or raises").

Concurrency is embedded deterministically: each spawned per-persona task puts a
fixed two-element sequence of events into the shared queue, and the order in
which the queue receives items is an explicit interleaving schedule parameter.
Properties are proved for every well-formed schedule, i.e. for every possible
completion interleaving.
-/

namespace FigmaCC

/-! ## Data model (`api/personas/definitions.py`, `api/models/*.py`) -/

/-- Persona dataclass: `id`, `label`, `system_prompt`. -/
structure Persona where
  id : String
  label : String
  system_prompt : String
deriving DecidableEq, Repr

/-- Severity literal type of an issue: `"high" | "medium" | "low"`. -/
inductive Severity where
  | high
  | medium
  | low
deriving DecidableEq, Repr

/-- Issue model from `api/models/response.py`. -/
structure Issue where
  severity : Severity
  area : String
  description : String
  suggestion : String
deriving DecidableEq, Repr

/-- Embedding of the pydantic `Annotation` model of `api/models/response.py`
(the Lean name is shortened). Python floats are modelled as rationals.
Field constraints (`ge`/`le` bounds and the `frame_index` default) are enforced
by the validating constructor `mkAnnot` below, mirroring pydantic validation
at construction time. -/
structure Annot where
  frame_index : Int
  x_pct : Rat
  y_pct : Rat
  width_pct : Rat
  height_pct : Rat
  issue_index : Int
  label : String
deriving DecidableEq, Repr

/-- Validating constructor for `Annot`, mirroring the pydantic field
constraints exactly: `frame_index` defaults to 0 and must be `ge=0`;
`x_pct`, `y_pct`, `width_pct`, `height_pct` must each lie in `[0, 100]`;
`issue_index` must be `ge=0`. No other constraint is declared on the model
(in particular, `frame_index` is not compared with any frame count). -/
def mkAnnot (frame_index : Option Int) (x_pct y_pct width_pct height_pct : Rat)
    (issue_index : Int) (label : String) : Option Annot :=
  let fi := frame_index.getD 0
  if 0 ≤ fi ∧
     0 ≤ x_pct ∧ x_pct ≤ 100 ∧
     0 ≤ y_pct ∧ y_pct ≤ 100 ∧
     0 ≤ width_pct ∧ width_pct ≤ 100 ∧
     0 ≤ height_pct ∧ height_pct ≤ 100 ∧
     0 ≤ issue_index then
    some ⟨fi, x_pct, y_pct, width_pct, height_pct, issue_index, label⟩
  else
    none

/-- PersonaFeedback model from `api/models/response.py` (structured output of
one persona run). -/
structure PersonaFeedback where
  persona : String
  persona_label : String
  overall_impression : String
  issues : List Issue
  positives : List String
  score : Int
  annotations : Option (List Annot) := none
deriving DecidableEq, Repr

/-- FeedbackResponse model from `api/models/response.py`. -/
structure FeedbackResponse where
  feedback : List PersonaFeedback
deriving DecidableEq, Repr

/-- Dimensions model from `api/models/request.py`. -/
structure Dimensions where
  width : Int
  height : Int
deriving DecidableEq, Repr

/-- DesignMetadata model from `api/models/request.py`. -/
structure DesignMetadata where
  frame_name : String
  dimensions : Dimensions
  text_content : List String := []
  colors : List String := []
  component_names : List String := []
deriving DecidableEq, Repr

/-- FrameData model from `api/models/request.py`. -/
structure FrameData where
  image : String
  metadata : DesignMetadata
deriving DecidableEq, Repr

/-- FeedbackRequest model from `api/models/request.py`. Pydantic declares
`personas` with `min_length=1`; that constraint is stated as a hypothesis
where a theorem needs it. -/
structure FeedbackRequest where
  image : Option String := none
  metadata : Option DesignMetadata := none
  frames : Option (List FrameData) := none
  personas : List String
  context : Option String := none
deriving DecidableEq, Repr

/-! ## Persona registry (`api/personas/definitions.py`) -/

/-- Entry `"first_time_user"` of the `PERSONAS` dict. -/
def firstTimeUser : Persona :=
  { id := "first_time_user"
    label := "First-Time User"
    system_prompt :=
      "You are a first-time user who has never seen this application before. " ++
      "You are not tech-savvy and get confused by jargon, unclear icons, or complex navigation. " ++
      "You need clear affordances, obvious calls to action, and simple language. " ++
      "Evaluate the design from this perspective: Can you figure out what to do? " ++
      "Is anything confusing? What would make you give up?" }

/-- Entry `"power_user"` of the `PERSONAS` dict. -/
def powerUser : Persona :=
  { id := "power_user"
    label := "Power User"
    system_prompt :=
      "You are a power user who uses this application daily for hours. " ++
      "You value efficiency, information density, and keyboard shortcuts. " ++
      "You dislike unnecessary confirmations, excessive whitespace, and hidden features. " ++
      "Evaluate the design from this perspective: Is the workflow efficient? " ++
      "Can you accomplish tasks quickly? Is information density appropriate?" }

/-- Entry `"accessibility_advocate"` of the `PERSONAS` dict. -/
def accessibilityAdvocate : Persona :=
  { id := "accessibility_advocate"
    label := "Accessibility Advocate"
    system_prompt :=
      "You are an accessibility expert evaluating this design for WCAG compliance. " ++
      "You check color contrast ratios, touch target sizes (minimum 44x44px), " ++
      "screen reader friendliness, keyboard navigation, and cognitive load. " ++
      "Evaluate the design from this perspective: Can people with visual, motor, " ++
      "or cognitive disabilities use this effectively?" }

/-- Entry `"brand_manager"` of the `PERSONAS` dict. -/
def brandManager : Persona :=
  { id := "brand_manager"
    label := "Brand Manager"
    system_prompt :=
      "You are a brand manager evaluating design consistency. " ++
      "You check for consistent use of colors, typography, spacing, and tone of voice. " ++
      "You care about whether the design feels cohesive and professional. " ++
      "Evaluate the design from this perspective: Does it feel on-brand? " ++
      "Is the visual language consistent? Does the tone match the brand personality?" }

/-- Entry `"skeptical_customer"` of the `PERSONAS` dict. -/
def skepticalCustomer : Persona :=
  { id := "skeptical_customer"
    label := "Skeptical Customer"
    system_prompt :=
      "You are a skeptical potential customer who distrusts online products. " ++
      "You look for trust signals (reviews, security badges, clear pricing). " ++
      "You are wary of dark patterns, hidden fees, and manipulative design. " ++
      "Evaluate the design from this perspective: Do you trust this? " ++
      "Is pricing transparent? Are there any dark patterns or manipulative elements?" }

/-- The `PERSONAS` dict, as an association list keyed by persona id
(insertion order of the Python dict literal; keys are distinct). -/
def PERSONAS : List (String × Persona) :=
  [("first_time_user", firstTimeUser),
   ("power_user", powerUser),
   ("accessibility_advocate", accessibilityAdvocate),
   ("brand_manager", brandManager),
   ("skeptical_customer", skepticalCustomer)]

/-- Embedding of `get_persona`: `PERSONAS.get(persona_id)`. -/
def get_persona (persona_id : String) : Option Persona :=
  PERSONAS.lookup persona_id

/-! ## Model Gateway interface

The external collaborator `invoke(persona, frames, context) -> Feedback`
(in the source, `get_persona_feedback`, whose body prepares images and calls
`feedback_agent.run`); it either returns a structured `PersonaFeedback` or
raises, modelled as `Except String PersonaFeedback`. -/

/-- Type of the Model Gateway operation. -/
abbrev Gateway : Type :=
  Persona → List FrameData → Option String → Except String PersonaFeedback

/-! ## Batch orchestrator (`get_all_feedback`) -/

/-- Embedding of `get_all_feedback` from `api/agents/persona_agent.py`:
resolve each id (`get_persona`), keep the non-`None` ones, run one gateway
invocation per valid persona (`asyncio.gather` with `return_exceptions=True`
preserves input order and turns per-task exceptions into values), then
zip personas with results and keep only non-exception results. -/
def get_all_feedback (invoke : Gateway) (persona_ids : List String)
    (frames : List FrameData) (context : Option String) : List PersonaFeedback :=
  let personas := persona_ids.map get_persona
  let valid_personas := personas.filterMap id
  let results := valid_personas.map (fun p => invoke p frames context)
  (valid_personas.zip results).filterMap (fun pr => pr.2.toOption)

/-! ## Streaming orchestrator (`stream_all_feedback`)

Each spawned task `_run_persona(persona)` puts exactly two items into the
shared `asyncio.Queue`: first a persona-start dict, then either the
successful `PersonaFeedback` or an error dict. The consumer loop pulls
`2 × |valid_personas|` items from the queue in FIFO order. The order in
which the queue receives items from the concurrently running tasks is an
execution detail; it is captured by an explicit interleaving schedule
`sched : List Nat`, where entry `i` means "the task of persona number `i`
puts its next pending item now". Every possible execution corresponds to a
well-formed schedule (`ValidSched`), and the theorems below hold for all of
them. -/

/-- Queue items of the streaming orchestrator: the persona-start dict, a
successful `PersonaFeedback` result, or the error dict; `keepalive` mirrors
the keepalive dict case accepted by the router match (never produced by
`stream_all_feedback`). -/
inductive StreamEvent where
  | personaStart (persona_id persona_label : String)
  | personaResult (fb : PersonaFeedback)
  | personaError (persona detail : String)
  | keepalive
deriving DecidableEq, Repr

/-- Predicate for persona-start events. -/
def StreamEvent.isStart : StreamEvent → Bool
  | .personaStart _ _ => true
  | _ => false

/-- Predicate for terminal events (result or error). -/
def StreamEvent.isTerminal : StreamEvent → Bool
  | .personaResult _ => true
  | .personaError _ _ => true
  | _ => false

/-- Terminal queue item of one spawned task: the try/except around
`get_persona_feedback` puts the result on success and the error dict
(persona id plus stringified exception) on failure. -/
def terminal_event (invoke : Gateway) (frames : List FrameData)
    (context : Option String) (p : Persona) : StreamEvent :=
  match invoke p frames context with
  | .ok fb => .personaResult fb
  | .error e => .personaError p.id e

/-- Embedding of the spawned task body `_run_persona`: it first puts the
persona-start event, then awaits the gateway and puts the terminal event.
The list is the exact sequence of queue puts the task performs. -/
def _run_persona (invoke : Gateway) (frames : List FrameData)
    (context : Option String) (p : Persona) : List StreamEvent :=
  [.personaStart p.id p.label, terminal_event invoke frames context p]

/-- Queue-put sequences of all spawned tasks, in spawn order. -/
def persona_task_seqs (invoke : Gateway) (frames : List FrameData)
    (context : Option String) (valid_personas : List Persona) : List (List StreamEvent) :=
  valid_personas.map (_run_persona invoke frames context)

/-- FIFO content of the shared queue under an interleaving schedule: step `i`
appends the next pending item of task `i` (steps naming an exhausted or
out-of-range task are skipped). -/
def interleave {α : Type} (seqs : List (List α)) (sched : List Nat) : List α :=
  match sched with
  | [] => []
  | i :: rest =>
    match seqs.getD i [] with
    | [] => interleave seqs rest
    | e :: es => e :: interleave (seqs.set i es) rest

/-- Well-formed schedule: it names only existing tasks and runs each task
exactly as often as that task has items to put. -/
def ValidSched {α : Type} (seqs : List (List α)) (sched : List Nat) : Prop :=
  (∀ j ∈ sched, j < seqs.length) ∧
    ∀ i, i < seqs.length → sched.count i = (seqs.getD i []).length

instance {α : Type} (seqs : List (List α)) (sched : List Nat) :
    Decidable (ValidSched seqs sched) := by
  unfold ValidSched
  infer_instance

/-- Embedding of `stream_all_feedback`: resolve ids, drop unknown ones,
return immediately when none resolve, otherwise spawn the tasks and yield
exactly `2 × |valid_personas|` queue items in FIFO order. -/
def stream_all_feedback (invoke : Gateway) (persona_ids : List String)
    (frames : List FrameData) (context : Option String) (sched : List Nat) :
    List StreamEvent :=
  let personas := persona_ids.map get_persona
  let valid_personas := personas.filterMap id
  if valid_personas.isEmpty then []
  else
    (interleave (persona_task_seqs invoke frames context valid_personas) sched).take
      (2 * valid_personas.length)

/-- Consumer-abandonment behaviour of the `stream_all_feedback` generator.
The returned pair is (events actually delivered, whether the post-loop
cancellation statements executed). The `task.cancel()` loop lexically follows
the yield loop and is not inside a `try/finally`, so when the consumer stops
pulling after `consumed < 2n` events the `GeneratorExit`/`CancelledError`
thrown at the suspended `yield`/`await` propagates out of the generator and
the cancellation statements never run; they run only when the loop finishes
normally after all `2n` events were consumed. -/
def stream_run (invoke : Gateway) (persona_ids : List String)
    (frames : List FrameData) (context : Option String) (sched : List Nat)
    (consumed : Nat) : List StreamEvent × Bool :=
  let personas := persona_ids.map get_persona
  let valid_personas := personas.filterMap id
  if valid_personas.isEmpty then ([], false)
  else
    let trace := stream_all_feedback invoke persona_ids frames context sched
    if consumed < 2 * valid_personas.length then (trace.take consumed, false)
    else (trace, true)

/-! ## Transport adapter (`api/routers/feedback.py`) -/

/-- HTTPException values raised by the feedback router; both carry status
code 400, the constructor records which detail message is attached
(`Unknown personas: {invalid}` with the invalid id list, or the
missing-frames message). -/
inductive HTTPError where
  | unknownPersonas (invalid : List String)
  | missingFrames
deriving DecidableEq, Repr

/-- Status code of a router error: both raises use `status_code=400`. -/
def HTTPError.status : HTTPError → Nat
  | _ => 400

/-- Embedding of `_validate_personas`: collect the ids that do not resolve
and raise a 400 listing them when there are any. -/
def _validate_personas (persona_ids : List String) : Except HTTPError Unit :=
  let invalid := persona_ids.filter (fun p => (get_persona p).isNone)
  if invalid.isEmpty then .ok () else .error (.unknownPersonas invalid)

/-- Embedding of `_normalize_frames`. Python truthiness is preserved:
`if request.frames:` is false for both `None` and `[]`; `request.image and
request.metadata` is false when the image is `None` or the empty string
(a pydantic model itself is always truthy, so metadata only needs to be
present). -/
def _normalize_frames (req : FeedbackRequest) : Except HTTPError (List FrameData) :=
  match req.frames with
  | some (f :: fs) => .ok (f :: fs)
  | _ =>
    match req.image, req.metadata with
    | some s, some m => if s = "" then .error .missingFrames else .ok [FrameData.mk s m]
    | _, _ => .error .missingFrames

/-- Embedding of the `POST /api/feedback` handler: validate personas,
normalize frames, then run the batch orchestrator. -/
def get_feedback (invoke : Gateway) (req : FeedbackRequest) :
    Except HTTPError FeedbackResponse := do
  let _ ← _validate_personas req.personas
  let frames ← _normalize_frames req
  pure { feedback := get_all_feedback invoke req.personas frames req.context }

/-- SSE lines produced by `event_generator` in the streaming route: the
keepalive comment, a data-only result line, a `persona-start` event line, a
`persona-error` event line, or the final `done` event line. -/
inductive SSELine where
  | keepaliveComment
  | dataLine (fb : PersonaFeedback)
  | startLine (persona_id persona_label : String)
  | errorLine (persona detail : String)
  | doneLine
deriving DecidableEq, Repr

/-- Serialization of one queue item by the `match` inside `event_generator`. -/
def sseOfEvent : StreamEvent → SSELine
  | .keepalive => .keepaliveComment
  | .personaResult fb => .dataLine fb
  | .personaStart pid plabel => .startLine pid plabel
  | .personaError pid detail => .errorLine pid detail

/-- Embedding of `event_generator`: serialize every item yielded by
`stream_all_feedback`, then always yield one final `done` line. -/
def event_generator (events : List StreamEvent) : List SSELine :=
  events.map sseOfEvent ++ [.doneLine]

/-- Embedding of the `POST /api/feedback/stream` handler: validate personas,
normalize frames, then return the SSE stream. -/
def stream_feedback (invoke : Gateway) (req : FeedbackRequest) (sched : List Nat) :
    Except HTTPError (List SSELine) := do
  let _ ← _validate_personas req.personas
  let frames ← _normalize_frames req
  pure (event_generator (stream_all_feedback invoke req.personas frames req.context sched))

/-! ## Sample data for witnesses -/

/-- Sample design metadata. -/
def sampleMetadata : DesignMetadata :=
  { frame_name := "Login", dimensions := { width := 1440, height := 900 } }

/-- Sample frame. -/
def sampleFrame : FrameData :=
  { image := "aW1hZ2U=", metadata := sampleMetadata }

/-- Sample single-frame request in the top-level image+metadata shape. -/
def sampleSingleReq : FeedbackRequest :=
  { image := some "aW1hZ2U="
    metadata := some sampleMetadata
    personas := ["first_time_user"] }

/-- Sample request carrying both the frames shape and the top-level shape. -/
def sampleBothReq : FeedbackRequest :=
  { image := some "aW1hZ2U="
    metadata := some sampleMetadata
    frames := some [sampleFrame, sampleFrame]
    personas := ["first_time_user"] }

/-- Sample request naming an unknown persona. -/
def sampleBadPersonaReq : FeedbackRequest :=
  { frames := some [sampleFrame]
    personas := ["first_time_user", "bogus_id"] }

/-- Canonical successful feedback value for a persona (id-faithful, as the
prompt instructs the model to echo the persona id). -/
def okFeedback (p : Persona) : PersonaFeedback :=
  { persona := p.id
    persona_label := p.label
    overall_impression := "Looks clean but confusing navigation."
    issues := []
    positives := ["Good colors"]
    score := 7 }

/-- Gateway that succeeds for every persona. -/
def invokeOk : Gateway := fun p _ _ => .ok (okFeedback p)

/-- Gateway that fails for the `"power_user"` persona and succeeds otherwise. -/
def invokeFailPU : Gateway := fun p _ _ =>
  if p.id = "power_user" then .error "boom" else .ok (okFeedback p)

/-! ## Registry lemmas -/

set_option maxRecDepth 4000 in
/-- Every persona stored in the registry is keyed by its own `id` field. -/
theorem get_persona_id_eq {pid : String} {p : Persona}
    (h : get_persona pid = some p) : p.id = pid := by
  simp only [get_persona, PERSONAS, List.lookup] at h
  repeat' split at h
  all_goals simp_all [beq_iff_eq, firstTimeUser, powerUser, accessibilityAdvocate,
    brandManager, skepticalCustomer]
  all_goals subst h
  all_goals rfl

/-- Zipping a list with its own image under `f` and keeping the successful
results is the same as filter-mapping the successes directly. This mirrors the
`zip(valid_personas, results, strict=True)` loop in `get_all_feedback`. -/
theorem zip_map_filterMap_toOption {α β ε : Type} (l : List α) (f : α → Except ε β) :
    (l.zip (l.map f)).filterMap (fun pr => pr.2.toOption)
      = l.filterMap (fun a => (f a).toOption) := by
  induction l with
  | nil => rfl
  | cons a t ih => simp only [List.map_cons, List.zip_cons_cons, List.filterMap_cons, ih]

/-- The batch orchestrator equals: resolve ids, drop unknown ones, keep the
successful gateway results in order. -/
theorem get_all_feedback_eq (invoke : Gateway) (persona_ids : List String)
    (frames : List FrameData) (context : Option String) :
    get_all_feedback invoke persona_ids frames context
      = (persona_ids.filterMap get_persona).filterMap
          (fun p => (invoke p frames context).toOption) := by
  simp only [get_all_feedback]
  rw [zip_map_filterMap_toOption, List.filterMap_map]
  simp [Function.comp_def]

/-- Evaluation rule: `toOption` of a success. -/
theorem toOption_ok {ε β : Type} (b : β) : (Except.ok b : Except ε β).toOption = some b := rfl

/-- Evaluation rule: `toOption` of a failure. -/
theorem toOption_err {ε β : Type} (e : ε) : (Except.error e : Except ε β).toOption = none := rfl

/-- Membership in the resolved-persona list is preserved when an id is
prepended to the request list. -/
theorem mem_filterMap_cons_of_mem {pid : String} {rest : List String} {q : Persona}
    (hq : q ∈ rest.filterMap get_persona) :
    q ∈ (pid :: rest).filterMap get_persona := by
  obtain ⟨a, ha, hga⟩ := List.mem_filterMap.mp hq
  exact List.mem_filterMap.mpr ⟨a, List.mem_cons_of_mem _ ha, hga⟩

/-- Helper: when every id resolves and every invocation succeeds with an
id-faithful feedback value, the batch output's persona ids equal the input
ids in order. -/
theorem batch_all_ok (invoke : Gateway) (frames : List FrameData)
    (context : Option String) :
    ∀ persona_ids : List String,
      (∀ pid ∈ persona_ids, (get_persona pid).isSome) →
      (∀ p ∈ persona_ids.filterMap get_persona,
        ∃ fb, invoke p frames context = .ok fb ∧ fb.persona = p.id) →
      (get_all_feedback invoke persona_ids frames context).map PersonaFeedback.persona
        = persona_ids := by
  intro ids
  induction ids with
  | nil => intro _ _; rfl
  | cons pid rest ih =>
    intro hres hok
    obtain ⟨p, hp⟩ : ∃ p, get_persona pid = some p := by
      have h1 := hres pid (by simp)
      cases hgp : get_persona pid with
      | none => rw [hgp] at h1; simp at h1
      | some q => exact ⟨q, rfl⟩
    obtain ⟨fb, hfb, hfbp⟩ :=
      hok p (List.mem_filterMap.mpr ⟨pid, List.mem_cons_self pid rest, hp⟩)
    rw [get_all_feedback_eq] at ih ⊢
    simp only [List.filterMap_cons, hp, hfb, toOption_ok, List.map_cons]
    rw [List.cons_eq_cons]
    constructor
    · rw [hfbp]; exact get_persona_id_eq hp
    · exact ih (fun q hq => hres q (by simp [hq]))
        (fun q hq => hok q (mem_filterMap_cons_of_mem hq))

/-- Helper: when every id resolves, the persona with id `pidF` (occurring
exactly once) fails, and every other invocation succeeds id-faithfully, the
batch output's persona ids are the input list with `pidF` erased. -/
theorem batch_one_fail (invoke : Gateway) (frames : List FrameData)
    (context : Option String) (pidF : String) (pF : Persona)
    (hpF : get_persona pidF = some pF) :
    ∀ persona_ids : List String,
      (∀ pid ∈ persona_ids, (get_persona pid).isSome) →
      persona_ids.count pidF = 1 →
      (∃ e, invoke pF frames context = .error e) →
      (∀ p ∈ persona_ids.filterMap get_persona, p ≠ pF →
        ∃ fb, invoke p frames context = .ok fb ∧ fb.persona = p.id) →
      (get_all_feedback invoke persona_ids frames context).map PersonaFeedback.persona
        = persona_ids.erase pidF := by
  intro ids
  induction ids with
  | nil => intro _ _ _ _; rfl
  | cons pid rest ih =>
    intro hres hcount hfail hok
    obtain ⟨p, hp⟩ : ∃ p, get_persona pid = some p := by
      have h1 := hres pid (by simp)
      cases hgp : get_persona pid with
      | none => rw [hgp] at h1; simp at h1
      | some q => exact ⟨q, rfl⟩
    by_cases hpid : pid = pidF
    · subst hpid
      have hpeq : p = pF := by rw [hp] at hpF; exact Option.some_injective _ hpF
      subst hpeq
      have hrest0 : rest.count pid = 0 := by
        simpa [List.count_cons] using hcount
      have hnotin : pid ∉ rest := by
        intro hmem
        exact absurd (List.count_pos_iff.mpr hmem) (by omega)
      obtain ⟨e, he⟩ := hfail
      rw [get_all_feedback_eq]
      simp only [List.filterMap_cons, hp, he, toOption_err, List.erase_cons_head]
      have hall := batch_all_ok invoke frames context rest
        (fun q hq => hres q (by simp [hq]))
        (fun q hq => by
          refine hok q (mem_filterMap_cons_of_mem hq) ?_
          intro hqe
          subst hqe
          obtain ⟨pid', h1, h2⟩ := List.mem_filterMap.mp hq
          have hq1 : pid' = q.id := (get_persona_id_eq h2).symm
          rw [get_persona_id_eq hp] at hq1
          exact hnotin (hq1 ▸ h1))
      rw [get_all_feedback_eq] at hall
      exact hall
    · have hpne : p ≠ pF := by
        intro hqe
        apply hpid
        rw [← get_persona_id_eq hp, hqe, get_persona_id_eq hpF]
      obtain ⟨fb, hfb, hfbp⟩ := hok p
        (List.mem_filterMap.mpr ⟨pid, List.mem_cons_self pid rest, hp⟩) hpne
      rw [get_all_feedback_eq]
      simp only [List.filterMap_cons, hp, hfb, toOption_ok, List.map_cons]
      rw [List.erase_cons_tail (by simp [beq_iff_eq]; exact fun h => hpid h)]
      rw [List.cons_eq_cons]
      constructor
      · rw [hfbp]; exact get_persona_id_eq hp
      · have hrest := ih (fun q hq => hres q (by simp [hq]))
          (by simpa [List.count_cons, hpid] using hcount) hfail
          (fun q hq hqne => hok q (mem_filterMap_cons_of_mem hq) hqne)
        rw [get_all_feedback_eq] at hrest
        exact hrest

/-- C1. Batch order preservation: for every list of persona ids that all
resolve, if every Model Gateway invocation succeeds (with the feedback
carrying its persona's id, as the structured-output contract requires), then
`get_all_feedback` returns one feedback per persona and the sequence of
persona ids of the returned list equals the input persona-id list in the same
order — `asyncio.gather` keeps submission order, so results are not reordered
by completion time. -/
theorem batch_order_preservation (invoke : Gateway) (frames : List FrameData)
    (context : Option String) (persona_ids : List String)
    (hres : ∀ pid ∈ persona_ids, (get_persona pid).isSome)
    (hok : ∀ p ∈ persona_ids.filterMap get_persona,
      ∃ fb, invoke p frames context = .ok fb ∧ fb.persona = p.id) :
    (get_all_feedback invoke persona_ids frames context).map PersonaFeedback.persona
        = persona_ids
    ∧ (get_all_feedback invoke persona_ids frames context).length
        = persona_ids.length := by
  have h := batch_all_ok invoke frames context persona_ids hres hok
  exact ⟨h, by simpa using congrArg List.length h⟩

/-- Witness for C1 at a concrete two-persona request. -/
theorem batch_order_preservation_witness :
    (get_all_feedback invokeOk ["power_user", "first_time_user"] [] none).map
        PersonaFeedback.persona
      = ["power_user", "first_time_user"]
    ∧ (get_all_feedback invokeOk ["power_user", "first_time_user"] [] none).length = 2 :=
  batch_order_preservation invokeOk [] none ["power_user", "first_time_user"]
    (by decide) (fun p _ => ⟨okFeedback p, rfl, rfl⟩)

/-- C3. Failure isolation in batch mode: for a fully resolving persona list in
which exactly one persona's invocation raises and all others succeed,
`get_all_feedback` returns `|P| - 1` feedback values, omitting only the failed
persona; the failure is caught (`return_exceptions=True`), so no exception
escapes (the embedding is a total function into a plain list) and sibling
invocations are unaffected. -/
theorem batch_failure_isolation (invoke : Gateway) (frames : List FrameData)
    (context : Option String) (persona_ids : List String) (pidF : String) (pF : Persona)
    (hres : ∀ pid ∈ persona_ids, (get_persona pid).isSome)
    (hcount : persona_ids.count pidF = 1)
    (hpF : get_persona pidF = some pF)
    (hfail : ∃ e, invoke pF frames context = .error e)
    (hok : ∀ p ∈ persona_ids.filterMap get_persona, p ≠ pF →
      ∃ fb, invoke p frames context = .ok fb ∧ fb.persona = p.id) :
    (get_all_feedback invoke persona_ids frames context).map PersonaFeedback.persona
        = persona_ids.erase pidF
    ∧ (get_all_feedback invoke persona_ids frames context).length
        = persona_ids.length - 1 := by
  have h := batch_one_fail invoke frames context pidF pF hpF persona_ids hres hcount hfail hok
  refine ⟨h, ?_⟩
  have hmem : pidF ∈ persona_ids := List.count_pos_iff.mp (by omega)
  have hl := congrArg List.length h
  simpa [List.length_erase_of_mem hmem] using hl

/-- Witness for C3: three personas, the middle one fails. -/
theorem batch_failure_isolation_witness :
    (get_all_feedback invokeFailPU ["first_time_user", "power_user", "brand_manager"]
        [] none).map PersonaFeedback.persona
      = ["first_time_user", "brand_manager"]
    ∧ (get_all_feedback invokeFailPU ["first_time_user", "power_user", "brand_manager"]
        [] none).length = 2 :=
  batch_failure_isolation invokeFailPU [] none
    ["first_time_user", "power_user", "brand_manager"] "power_user" powerUser
    (by decide) (by decide) rfl ⟨"boom", rfl⟩
    (by
      intro p hp hne
      fin_cases hp
      · exact ⟨okFeedback firstTimeUser, rfl, rfl⟩
      · exact absurd rfl hne
      · exact ⟨okFeedback brandManager, rfl, rfl⟩)

/-- C7. Unknown-id drop in the orchestrator: ids that fail to resolve are
silently dropped (one resolvable id plus one bogus id yields exactly one
result), and if no id resolves the orchestrator returns an empty list with an
empty `valid_personas` list, i.e. without spawning any invocation. -/
theorem unknown_ids_dropped (invoke : Gateway) (frames : List FrameData)
    (context : Option String) :
    (∀ v b p fb, get_persona v = some p → get_persona b = none →
      invoke p frames context = .ok fb →
      get_all_feedback invoke [v, b] frames context = [fb]) ∧
    (∀ persona_ids : List String, (∀ pid ∈ persona_ids, get_persona pid = none) →
      (persona_ids.map get_persona).filterMap id = [] ∧
        get_all_feedback invoke persona_ids frames context = []) := by
  constructor
  · intro v b p fb hv hb hfb
    rw [get_all_feedback_eq]
    simp [List.filterMap_cons, hv, hb, hfb, toOption_ok]
  · intro ids hnone
    have hempty : ids.filterMap get_persona = [] := by
      rw [List.filterMap_eq_nil_iff]
      intro a ha
      exact hnone a ha
    constructor
    · rw [List.filterMap_map]
      simpa [Function.comp_def] using hempty
    · rw [get_all_feedback_eq, hempty]
      rfl

/-- Witness for C7: one valid id plus one bogus id gives exactly one result;
an unresolvable id alone gives the empty list. -/
theorem unknown_ids_dropped_witness :
    get_all_feedback invokeOk ["first_time_user", "bogus_id"] [] none
        = [okFeedback firstTimeUser]
    ∧ get_all_feedback invokeOk ["nope"] [] none = [] :=
  ⟨(unknown_ids_dropped invokeOk [] none).1 "first_time_user" "bogus_id"
      firstTimeUser (okFeedback firstTimeUser) rfl rfl rfl,
    ((unknown_ids_dropped invokeOk [] none).2 ["nope"] (by decide)).2⟩

/-! ## Interleaving lemmas -/

/-- Unfolding rule for one productive scheduler step. -/
theorem interleave_cons {α : Type} {seqs : List (List α)} {j : Nat} {rest : List Nat}
    {e : α} {es : List α} (hseq : seqs.getD j [] = e :: es) :
    interleave seqs (j :: rest) = e :: interleave (seqs.set j es) rest := by
  simp only [interleave, hseq]

/-- A well-formed schedule stays well-formed after one productive step. -/
theorem ValidSched.step {α : Type} {seqs : List (List α)} {j : Nat} {rest : List Nat}
    {e : α} {es : List α} (hv : ValidSched seqs (j :: rest)) (hj : j < seqs.length)
    (hseq : seqs.getD j [] = e :: es) : ValidSched (seqs.set j es) rest := by
  constructor
  · intro x hx
    rw [List.length_set]
    exact hv.1 x (by simp [hx])
  · intro i hi
    rw [List.length_set] at hi
    have hgi : i < (seqs.set j es).length := by rw [List.length_set]; exact hi
    by_cases hij : i = j
    · subst hij
      rw [List.getD_eq_getElem _ _ hgi, List.getElem_set_self]
      have hcnt := hv.2 i hi
      rw [List.count_cons, hseq] at hcnt
      simp at hcnt
      omega
    · rw [List.getD_eq_getElem _ _ hgi, List.getElem_set_ne (fun h => hij h.symm),
        ← List.getD_eq_getElem seqs [] hi]
      have hcnt := hv.2 i hi
      rw [List.count_cons] at hcnt
      simp only [beq_iff_eq] at hcnt
      rw [if_neg (fun h => hij h.symm)] at hcnt
      omega

/-- The first scheduler step of a well-formed nonempty schedule is
productive: the named task still has a pending item. -/
theorem ValidSched.head_productive {α : Type} {seqs : List (List α)} {j : Nat}
    {rest : List Nat} (hv : ValidSched seqs (j :: rest)) :
    j < seqs.length ∧ ∃ e es, seqs.getD j [] = e :: es := by
  have hj : j < seqs.length := hv.1 j (by simp)
  refine ⟨hj, ?_⟩
  have hcnt := hv.2 j hj
  rw [List.count_cons_self] at hcnt
  cases hseq : seqs.getD j [] with
  | nil => rw [hseq] at hcnt; simp at hcnt
  | cons e es => exact ⟨e, es, rfl⟩

/-- The queue content under any well-formed schedule is a permutation of the
concatenation of all task put-sequences: every task's items are delivered,
each exactly once. -/
theorem interleave_perm {α : Type} :
    ∀ (sched : List Nat) (seqs : List (List α)), ValidSched seqs sched →
      (interleave seqs sched).Perm seqs.flatten := by
  intro sched
  induction sched with
  | nil =>
    intro seqs hv
    have hall : ∀ l ∈ seqs, l = [] := by
      intro l hl
      obtain ⟨i, hi, hgl⟩ := List.mem_iff_getElem.mp hl
      have hc := hv.2 i hi
      rw [List.getD_eq_getElem seqs [] hi, hgl] at hc
      simp at hc
      exact List.eq_nil_of_length_eq_zero hc.symm
    have hflat : seqs.flatten = [] := List.flatten_eq_nil_iff.mpr hall
    simp [interleave, hflat]
  | cons j rest ih =>
    intro seqs hv
    obtain ⟨hj, e, es, hseq⟩ := hv.head_productive
    rw [interleave_cons hseq]
    have hperm := ih (seqs.set j es) (hv.step hj hseq)
    refine (hperm.cons e).trans ?_
    rw [List.set_eq_take_cons_drop es hj]
    have hseqs : seqs.take j ++ seqs[j] :: seqs.drop (j + 1) = seqs := by
      rw [List.getElem_cons_drop seqs j hj, List.take_append_drop]
    conv_rhs => rw [← hseqs]
    rw [List.getD_eq_getElem seqs [] hj] at hseq
    rw [hseq]
    rw [List.flatten_append, List.flatten_cons, List.flatten_append, List.flatten_cons]
    simp only [List.cons_append]
    exact List.perm_middle.symm

/-- Each task's put-sequence appears inside the queue content as a
subsequence: the queue preserves the relative order of any one task's puts
(in particular, a task's first put precedes its second). -/
theorem interleave_sublist {α : Type} :
    ∀ (sched : List Nat) (seqs : List (List α)), ValidSched seqs sched →
      ∀ i, i < seqs.length → (seqs.getD i []).Sublist (interleave seqs sched) := by
  intro sched
  induction sched with
  | nil =>
    intro seqs hv i hi
    have hc := hv.2 i hi
    rw [List.count_nil] at hc
    rw [List.eq_nil_of_length_eq_zero hc.symm]
    simp [interleave]
  | cons j rest ih =>
    intro seqs hv i hi
    obtain ⟨hj, e, es, hseq⟩ := hv.head_productive
    rw [interleave_cons hseq]
    have hgi : i < (seqs.set j es).length := by rw [List.length_set]; exact hi
    by_cases hij : i = j
    · subst hij
      rw [hseq]
      refine List.Sublist.cons₂ e ?_
      have hsub := ih (seqs.set i es) (hv.step hj hseq) i hgi
      rw [List.getD_eq_getElem _ _ hgi, List.getElem_set_self] at hsub
      exact hsub
    · refine List.Sublist.cons e ?_
      have hsub := ih (seqs.set j es) (hv.step hj hseq) i hgi
      rw [List.getD_eq_getElem _ _ hgi, List.getElem_set_ne (fun h => hij h.symm),
        ← List.getD_eq_getElem seqs [] hi] at hsub
      exact hsub

/-! ## Streaming lemmas -/

/-- Sum of a constantly-`k`-valued map. -/
theorem sum_map_const_nat {β : Type} (l : List β) (k : Nat) (f : β → Nat)
    (hf : ∀ b, f b = k) : (l.map f).sum = k * l.length := by
  induction l with
  | nil => simp
  | cons a t ih =>
    simp only [List.map_cons, List.sum_cons, ih, hf a, List.length_cons]
    ring

/-- Every spawned task puts exactly two items. -/
theorem run_persona_length (invoke : Gateway) (frames : List FrameData)
    (context : Option String) (p : Persona) :
    (_run_persona invoke frames context p).length = 2 := rfl

/-- Every spawned task puts exactly one persona-start item. -/
theorem run_persona_countP_start (invoke : Gateway) (frames : List FrameData)
    (context : Option String) (p : Persona) :
    (_run_persona invoke frames context p).countP StreamEvent.isStart = 1 := by
  cases h : invoke p frames context <;>
    simp [_run_persona, terminal_event, h, StreamEvent.isStart, List.countP_cons]

/-- Every spawned task puts exactly one terminal item. -/
theorem run_persona_countP_terminal (invoke : Gateway) (frames : List FrameData)
    (context : Option String) (p : Persona) :
    (_run_persona invoke frames context p).countP StreamEvent.isTerminal = 1 := by
  cases h : invoke p frames context <;>
    simp [_run_persona, terminal_event, h, StreamEvent.isTerminal, List.countP_cons]

/-- There are as many task put-sequences as valid personas. -/
theorem task_seqs_length (invoke : Gateway) (frames : List FrameData)
    (context : Option String) (valid_personas : List Persona) :
    (persona_task_seqs invoke frames context valid_personas).length
      = valid_personas.length := by
  simp [persona_task_seqs]

/-- The `i`-th task put-sequence is the put-sequence of the `i`-th valid
persona. -/
theorem task_seqs_getD (invoke : Gateway) (frames : List FrameData)
    (context : Option String) (valid_personas : List Persona) (i : Nat)
    (hi : i < valid_personas.length) :
    (persona_task_seqs invoke frames context valid_personas).getD i []
      = _run_persona invoke frames context valid_personas[i] := by
  rw [List.getD_eq_getElem _ _ (by simpa [persona_task_seqs] using hi)]
  simp [persona_task_seqs]

/-- Combined queue content: `2n` items in total. -/
theorem task_seqs_flatten_length (invoke : Gateway) (frames : List FrameData)
    (context : Option String) (valid_personas : List Persona) :
    (persona_task_seqs invoke frames context valid_personas).flatten.length
      = 2 * valid_personas.length := by
  rw [List.length_flatten, persona_task_seqs, List.map_map]
  exact sum_map_const_nat valid_personas 2 _ (fun p => rfl)

/-- With a well-formed schedule and at least one valid persona, the stream
output is exactly the queue content in FIFO order (the `take` of the
counting loop consumes everything, because the queue receives exactly `2n`
items). -/
theorem stream_all_feedback_eq_interleave (invoke : Gateway)
    (persona_ids : List String) (frames : List FrameData) (context : Option String)
    (sched : List Nat)
    (hv : ValidSched
      (persona_task_seqs invoke frames context
        ((persona_ids.map get_persona).filterMap id)) sched)
    (hne : ((persona_ids.map get_persona).filterMap id).isEmpty = false) :
    stream_all_feedback invoke persona_ids frames context sched
      = interleave
          (persona_task_seqs invoke frames context
            ((persona_ids.map get_persona).filterMap id)) sched := by
  have hlen : (interleave
      (persona_task_seqs invoke frames context
        ((persona_ids.map get_persona).filterMap id)) sched).length
      = 2 * ((persona_ids.map get_persona).filterMap id).length := by
    rw [(interleave_perm sched _ hv).length_eq, task_seqs_flatten_length]
  simp only [stream_all_feedback, hne, Bool.false_eq_true, if_false]
  exact List.take_of_length_le (le_of_eq hlen)

/-- The stream output under a well-formed schedule is a permutation of the
combined task put-sequences. -/
theorem stream_all_feedback_perm (invoke : Gateway)
    (persona_ids : List String) (frames : List FrameData) (context : Option String)
    (sched : List Nat)
    (hv : ValidSched
      (persona_task_seqs invoke frames context
        ((persona_ids.map get_persona).filterMap id)) sched)
    (hne : ((persona_ids.map get_persona).filterMap id).isEmpty = false) :
    (stream_all_feedback invoke persona_ids frames context sched).Perm
      (persona_task_seqs invoke frames context
        ((persona_ids.map get_persona).filterMap id)).flatten := by
  rw [stream_all_feedback_eq_interleave invoke persona_ids frames context sched hv hne]
  exact interleave_perm sched _ hv

/-- Serialization never produces the done line. -/
theorem sseOfEvent_ne_done (e : StreamEvent) : sseOfEvent e ≠ SSELine.doneLine := by
  cases e <;> simp [sseOfEvent]

/-- C2. Streaming event count invariant: for every well-formed execution
schedule, if `n ≥ 1` personas resolve then the orchestrator yields exactly
`2n` persona-scoped events — `n` persona-start and `n` terminal events —
and the SSE generator emits exactly those followed by exactly one final done
line; if `n = 0` the orchestrator yields zero events (and, producing
no event at all, no done-style event of its own). -/
theorem stream_event_count_invariant (invoke : Gateway) (persona_ids : List String)
    (frames : List FrameData) (context : Option String) (sched : List Nat)
    (hv : ValidSched (persona_task_seqs invoke frames context
      ((persona_ids.map get_persona).filterMap id)) sched) :
    (1 ≤ ((persona_ids.map get_persona).filterMap id).length →
      (stream_all_feedback invoke persona_ids frames context sched).length
          = 2 * ((persona_ids.map get_persona).filterMap id).length
      ∧ (stream_all_feedback invoke persona_ids frames context sched).countP
            StreamEvent.isStart = ((persona_ids.map get_persona).filterMap id).length
      ∧ (stream_all_feedback invoke persona_ids frames context sched).countP
            StreamEvent.isTerminal = ((persona_ids.map get_persona).filterMap id).length
      ∧ event_generator (stream_all_feedback invoke persona_ids frames context sched)
          = (stream_all_feedback invoke persona_ids frames context sched).map sseOfEvent
              ++ [SSELine.doneLine]
      ∧ (event_generator
            (stream_all_feedback invoke persona_ids frames context sched)).length
          = 2 * ((persona_ids.map get_persona).filterMap id).length + 1
      ∧ (event_generator
            (stream_all_feedback invoke persona_ids frames context sched)).count
            SSELine.doneLine = 1
      ∧ (event_generator
            (stream_all_feedback invoke persona_ids frames context sched)).getLast?
          = some SSELine.doneLine)
    ∧ (((persona_ids.map get_persona).filterMap id).length = 0 →
        stream_all_feedback invoke persona_ids frames context sched = []) := by
  constructor
  · intro hn
    have hnil : ((persona_ids.map get_persona).filterMap id) ≠ [] := by
      intro h
      rw [h] at hn
      simp at hn
    have hne : ((persona_ids.map get_persona).filterMap id).isEmpty = false :=
      List.isEmpty_eq_false.mpr hnil
    have hperm := stream_all_feedback_perm invoke persona_ids frames context sched hv hne
    have hlen : (stream_all_feedback invoke persona_ids frames context sched).length
        = 2 * ((persona_ids.map get_persona).filterMap id).length :=
      hperm.length_eq.trans (task_seqs_flatten_length _ _ _ _)
    have hstart : (stream_all_feedback invoke persona_ids frames context sched).countP
        StreamEvent.isStart = ((persona_ids.map get_persona).filterMap id).length := by
      rw [hperm.countP_eq, List.countP_flatten, persona_task_seqs, List.map_map]
      have := sum_map_const_nat ((persona_ids.map get_persona).filterMap id) 1
        (List.countP StreamEvent.isStart ∘ _run_persona invoke frames context)
        (fun p => run_persona_countP_start invoke frames context p)
      rw [this]
      omega
    have hterm : (stream_all_feedback invoke persona_ids frames context sched).countP
        StreamEvent.isTerminal = ((persona_ids.map get_persona).filterMap id).length := by
      rw [hperm.countP_eq, List.countP_flatten, persona_task_seqs, List.map_map]
      have := sum_map_const_nat ((persona_ids.map get_persona).filterMap id) 1
        (List.countP StreamEvent.isTerminal ∘ _run_persona invoke frames context)
        (fun p => run_persona_countP_terminal invoke frames context p)
      rw [this]
      omega
    refine ⟨hlen, hstart, hterm, rfl, ?_, ?_, List.getLast?_concat _⟩
    · simp [event_generator, hlen]
    · rw [event_generator, List.count_append]
      have h0 : (List.map sseOfEvent
          (stream_all_feedback invoke persona_ids frames context sched)).count
          SSELine.doneLine = 0 := by
        rw [List.count_eq_zero]
        intro hmem
        obtain ⟨e, _, he⟩ := List.mem_map.mp hmem
        exact sseOfEvent_ne_done e he
      rw [h0]
      rfl
  · intro h0
    have hnil := List.eq_nil_of_length_eq_zero h0
    simp [stream_all_feedback, hnil]

/-- Witness for C2 at two personas and the completion-order schedule
`[0, 1, 1, 0]`. -/
theorem stream_event_count_invariant_witness :
    (stream_all_feedback invokeOk ["first_time_user", "power_user"] [] none
        [0, 1, 1, 0]).length = 4
    ∧ (event_generator (stream_all_feedback invokeOk ["first_time_user", "power_user"]
        [] none [0, 1, 1, 0])).count SSELine.doneLine = 1 := by
  have h := (stream_event_count_invariant invokeOk ["first_time_user", "power_user"]
    [] none [0, 1, 1, 0] (by decide)).1 (by decide)
  exact ⟨h.1, h.2.2.2.2.2.1⟩

/-- C5. Per-persona lifecycle ordering in the stream: under every well-formed
schedule, each resolved persona's start event precedes that same persona's
terminal event (the task's two-element put-sequence is a subsequence of the
output); the consumer-facing sequence is exactly the queue content in FIFO
arrival (completion) order, and in the concrete two-persona run where the
second-submitted persona completes first, its terminal event is yielded
before the first-submitted persona's terminal event. -/
theorem stream_lifecycle_order (invoke : Gateway) (persona_ids : List String)
    (frames : List FrameData) (context : Option String) (sched : List Nat)
    (hv : ValidSched (persona_task_seqs invoke frames context
      ((persona_ids.map get_persona).filterMap id)) sched)
    (hne : ((persona_ids.map get_persona).filterMap id).isEmpty = false) :
    (∀ i (hi : i < ((persona_ids.map get_persona).filterMap id).length),
      [StreamEvent.personaStart ((persona_ids.map get_persona).filterMap id)[i].id
          ((persona_ids.map get_persona).filterMap id)[i].label,
        terminal_event invoke frames context
          ((persona_ids.map get_persona).filterMap id)[i]].Sublist
        (stream_all_feedback invoke persona_ids frames context sched))
    ∧ stream_all_feedback invoke persona_ids frames context sched
        = interleave (persona_task_seqs invoke frames context
            ((persona_ids.map get_persona).filterMap id)) sched
    ∧ stream_all_feedback invokeOk ["first_time_user", "power_user"] [] none [0, 1, 1, 0]
        = [StreamEvent.personaStart "first_time_user" "First-Time User",
           StreamEvent.personaStart "power_user" "Power User",
           StreamEvent.personaResult (okFeedback powerUser),
           StreamEvent.personaResult (okFeedback firstTimeUser)] := by
  refine ⟨?_, stream_all_feedback_eq_interleave invoke persona_ids frames context sched hv hne,
    by decide⟩
  intro i hi
  rw [stream_all_feedback_eq_interleave invoke persona_ids frames context sched hv hne]
  have hsub := interleave_sublist sched _ hv i
    (by rw [task_seqs_length]; exact hi)
  rw [task_seqs_getD invoke frames context _ i hi] at hsub
  exact hsub

/-- Witness for C5: the first persona's start/terminal pair is a subsequence
of the concrete two-persona stream. -/
theorem stream_lifecycle_order_witness :
    [StreamEvent.personaStart "first_time_user" "First-Time User",
     StreamEvent.personaResult (okFeedback firstTimeUser)].Sublist
      (stream_all_feedback invokeOk ["first_time_user", "power_user"] [] none
        [0, 1, 1, 0]) := by
  have h := (stream_lifecycle_order invokeOk ["first_time_user", "power_user"] [] none
    [0, 1, 1, 0] (by decide) (by decide)).1 0 (by decide)
  exact h

/-- C6 counterexample: the persona-start event is put by the spawned task
itself — the first item of `_run_persona`'s put-sequence is the persona-start
event and the task puts exactly one such event — contradicting the claim
that the start event is synthesized outside the spawned task (in which case
the task's put-sequence would contain no start event). -/
theorem persona_start_inside_task_cex :
    (_run_persona invokeOk [] none firstTimeUser).countP StreamEvent.isStart = 1
    ∧ (_run_persona invokeOk [] none firstTimeUser).head?
        = some (StreamEvent.personaStart "first_time_user" "First-Time User") := by
  constructor
  · decide
  · rfl

/-- C6 amended: for each resolved persona the orchestrator spawns a task
whose body first emits the PersonaStart event and only then performs the
Model Gateway call, emitting its terminal event afterwards — so the start
event is emitted before the gateway call begins, but inside the spawned
task, not outside it. -/
theorem persona_start_before_gateway (invoke : Gateway) (frames : List FrameData)
    (context : Option String) (p : Persona) :
    (_run_persona invoke frames context p).head?
        = some (StreamEvent.personaStart p.id p.label)
    ∧ (_run_persona invoke frames context p).getLast?
        = some (terminal_event invoke frames context p)
    ∧ (terminal_event invoke frames context p).isTerminal = true
    ∧ (_run_persona invoke frames context p).length = 2 := by
  refine ⟨rfl, rfl, ?_, rfl⟩
  cases h : invoke p frames context <;> simp [terminal_event, h, StreamEvent.isTerminal]

/-- C4 failing input: two resolved personas (`2n = 4` expected events), the
consumer stops after 1 event. The generator's post-loop `task.cancel()`
statements never execute (second component `false`), because they are not in
a `try/finally` and the loop is abandoned at a suspended yield — the two
in-flight invocation tasks are left uncancelled. -/
theorem stream_abandon_no_cancel :
    (stream_run invokeOk ["first_time_user", "power_user"] [] none [0, 1, 1, 0] 1).2 = false
    ∧ (stream_run invokeOk ["first_time_user", "power_user"] [] none [0, 1, 1, 0] 1).1
        = [StreamEvent.personaStart "first_time_user" "First-Time User"]
    ∧ (1 : Nat) < 2 * 2
    ∧ (stream_run invokeOk ["first_time_user", "power_user"] [] none [0, 1, 1, 0] 4).2
        = true := by
  refine ⟨rfl, by decide, by omega, rfl⟩

/-! ## Router lemmas -/

/-- Unfolding of the batch handler's monadic pipeline. -/
theorem get_feedback_eq (invoke : Gateway) (req : FeedbackRequest) :
    get_feedback invoke req =
      match _validate_personas req.personas with
      | .error e => .error e
      | .ok _ =>
        match _normalize_frames req with
        | .error e => .error e
        | .ok frames =>
          .ok { feedback := get_all_feedback invoke req.personas frames req.context } := by
  cases hv : _validate_personas req.personas <;> cases hn : _normalize_frames req <;>
    simp [get_feedback, hv, hn, Bind.bind, Except.bind, pure, Except.pure]

/-- Unfolding of the streaming handler's monadic pipeline. -/
theorem stream_feedback_eq (invoke : Gateway) (req : FeedbackRequest) (sched : List Nat) :
    stream_feedback invoke req sched =
      match _validate_personas req.personas with
      | .error e => .error e
      | .ok _ =>
        match _normalize_frames req with
        | .error e => .error e
        | .ok frames =>
          .ok (event_generator
            (stream_all_feedback invoke req.personas frames req.context sched)) := by
  cases hv : _validate_personas req.personas <;> cases hn : _normalize_frames req <;>
    simp [stream_feedback, hv, hn, Bind.bind, Except.bind, pure, Except.pure]

/-- Validation succeeds exactly when every requested persona id resolves. -/
theorem validate_personas_ok_iff (persona_ids : List String) :
    _validate_personas persona_ids = .ok ()
      ↔ ∀ pid ∈ persona_ids, (get_persona pid).isSome := by
  simp only [_validate_personas]
  by_cases h : (persona_ids.filter (fun p => (get_persona p).isNone)).isEmpty
  · rw [if_pos h]
    constructor
    · intro _ pid hmem
      have hf := List.filter_eq_nil_iff.mp (List.isEmpty_iff.mp h) pid hmem
      cases hgp : get_persona pid <;> simp_all
    · intro _; rfl
  · rw [if_neg h]
    constructor
    · intro hcontra; exact absurd hcontra (by simp)
    · intro hall
      exfalso
      apply h
      rw [List.isEmpty_iff, List.filter_eq_nil_iff]
      intro a ha
      have := hall a ha
      cases hgp : get_persona a <;> simp_all

/-- When some requested id does not resolve, validation raises the 400 listing
exactly the unresolvable ids. -/
theorem validate_personas_fail_eq (persona_ids : List String)
    (hbad : ∃ pid ∈ persona_ids, get_persona pid = none) :
    _validate_personas persona_ids
      = .error (.unknownPersonas
          (persona_ids.filter (fun p => (get_persona p).isNone))) := by
  obtain ⟨pid, hm, hnone⟩ := hbad
  have hmemf : pid ∈ persona_ids.filter (fun p => (get_persona p).isNone) :=
    List.mem_filter.mpr ⟨hm, by simp [hnone]⟩
  have hne : persona_ids.filter (fun p => (get_persona p).isNone) ≠ [] :=
    List.ne_nil_of_mem hmemf
  simp only [_validate_personas]
  rw [if_neg (by rw [List.isEmpty_iff]; exact hne)]

/-- The frame normalizer only ever raises the missing-frames error. -/
theorem normalize_frames_error_missing (req : FeedbackRequest) (e : HTTPError)
    (h : _normalize_frames req = .error e) : e = .missingFrames := by
  simp only [_normalize_frames] at h
  repeat' split at h
  all_goals simp_all

/-- C8. Unknown personas rejected before orchestration: each feedback endpoint
returns the 400 error listing the invalid ids if and only if at least one
requested persona id does not resolve; the error lists exactly the
unresolvable ids, and in that case the handler's result is independent of the
Model Gateway — validation raises before the orchestrator is reached, so no
gateway call is made. -/
theorem unknown_persona_rejected_before_orchestration (invoke : Gateway)
    (req : FeedbackRequest) (sched : List Nat) :
    ((∃ inv, get_feedback invoke req = .error (.unknownPersonas inv))
      ↔ ∃ pid ∈ req.personas, get_persona pid = none)
    ∧ ((∃ inv, stream_feedback invoke req sched = .error (.unknownPersonas inv))
      ↔ ∃ pid ∈ req.personas, get_persona pid = none)
    ∧ (∀ inv, get_feedback invoke req = .error (.unknownPersonas inv) →
        inv = req.personas.filter (fun p => (get_persona p).isNone)
        ∧ inv ≠ [] ∧ HTTPError.status (.unknownPersonas inv) = 400)
    ∧ ((∃ pid ∈ req.personas, get_persona pid = none) → ∀ invoke2 : Gateway,
        get_feedback invoke req = get_feedback invoke2 req
        ∧ stream_feedback invoke req sched = stream_feedback invoke2 req sched) := by
  by_cases hbad : ∃ pid ∈ req.personas, get_persona pid = none
  · have hval := validate_personas_fail_eq req.personas hbad
    have hgf : ∀ inv2 : Gateway, get_feedback inv2 req
        = .error (.unknownPersonas
            (req.personas.filter (fun p => (get_persona p).isNone))) := by
      intro inv2
      rw [get_feedback_eq, hval]
    have hsf : ∀ inv2 : Gateway, stream_feedback inv2 req sched
        = .error (.unknownPersonas
            (req.personas.filter (fun p => (get_persona p).isNone))) := by
      intro inv2
      rw [stream_feedback_eq, hval]
    have hfilne : req.personas.filter (fun p => (get_persona p).isNone) ≠ [] := by
      obtain ⟨pid, hm, hnone⟩ := hbad
      exact List.ne_nil_of_mem (List.mem_filter.mpr ⟨hm, by simp [hnone]⟩)
    refine ⟨⟨fun _ => hbad, fun _ => ⟨_, hgf invoke⟩⟩,
      ⟨fun _ => hbad, fun _ => ⟨_, hsf invoke⟩⟩, ?_, fun _ inv2 => ⟨?_, ?_⟩⟩
    · intro inv hinv
      rw [hgf invoke] at hinv
      have := (Except.error.injEq _ _).mp hinv
      have hinv2 : inv
          = req.personas.filter (fun p => (get_persona p).isNone) := by
        cases this
        rfl
      exact ⟨hinv2, hinv2 ▸ hfilne, rfl⟩
    · rw [hgf invoke, hgf inv2]
    · rw [hsf invoke, hsf inv2]
  · have hall : ∀ pid ∈ req.personas, (get_persona pid).isSome := by
      intro pid hm
      cases hgp : get_persona pid with
      | none => exact absurd ⟨pid, hm, hgp⟩ hbad
      | some q => rfl
    have hval : _validate_personas req.personas = .ok () :=
      (validate_personas_ok_iff req.personas).mpr hall
    have hnotunk : ∀ inv, get_feedback invoke req ≠ .error (.unknownPersonas inv) := by
      intro inv hinv
      rw [get_feedback_eq, hval] at hinv
      cases hn : _normalize_frames req with
      | error e =>
        rw [hn] at hinv
        have he := normalize_frames_error_missing req e hn
        subst he
        simp at hinv
      | ok frames => rw [hn] at hinv; simp at hinv
    have hnotunks : ∀ inv, stream_feedback invoke req sched
        ≠ .error (.unknownPersonas inv) := by
      intro inv hinv
      rw [stream_feedback_eq, hval] at hinv
      cases hn : _normalize_frames req with
      | error e =>
        rw [hn] at hinv
        have he := normalize_frames_error_missing req e hn
        subst he
        simp at hinv
      | ok frames => rw [hn] at hinv; simp at hinv
    refine ⟨⟨fun ⟨inv, hinv⟩ => absurd hinv (hnotunk inv), fun h => absurd h hbad⟩,
      ⟨fun ⟨inv, hinv⟩ => absurd hinv (hnotunks inv), fun h => absurd h hbad⟩,
      fun inv hinv => absurd hinv (hnotunk inv),
      fun h => absurd h hbad⟩

/-- Witness for C8: a request naming `"bogus_id"` is rejected by both
endpoints with the unknown-personas 400. -/
theorem unknown_persona_rejected_witness :
    (∃ inv, get_feedback invokeOk sampleBadPersonaReq = .error (.unknownPersonas inv))
    ∧ (∃ inv, stream_feedback invokeOk sampleBadPersonaReq []
        = .error (.unknownPersonas inv)) := by
  have h := unknown_persona_rejected_before_orchestration invokeOk sampleBadPersonaReq []
  exact ⟨h.1.mpr ⟨"bogus_id", by decide, rfl⟩, h.2.1.mpr ⟨"bogus_id", by decide, rfl⟩⟩

/-- Helper: when the frames list is falsy and image+metadata are truthy, the
normalizer wraps them into a single frame. -/
theorem normalize_frames_fallback_ok (req : FeedbackRequest) (s : String)
    (m : DesignMetadata) (hf : req.frames = none ∨ req.frames = some [])
    (hi : req.image = some s) (hs : s ≠ "") (hm : req.metadata = some m) :
    _normalize_frames req = .ok [FrameData.mk s m] := by
  rcases hf with hf | hf <;> simp [_normalize_frames, hf, hi, hm, hs]

/-- C10. Frame-shape precedence and non-emptiness: a non-empty `frames` list
is returned unchanged even when the top-level image and metadata are also
present; otherwise a truthy image together with metadata yields the
one-element frame list; an error is raised only as the missing-frames 400 and
only when neither shape is usable; every successful normalization is
non-empty. -/
theorem normalize_frames_spec (req : FeedbackRequest) :
    (∀ fs, req.frames = some fs → fs ≠ [] → _normalize_frames req = .ok fs)
    ∧ (∀ s m, (req.frames = none ∨ req.frames = some []) → req.image = some s →
        s ≠ "" → req.metadata = some m →
        _normalize_frames req = .ok [FrameData.mk s m])
    ∧ (∀ fs, _normalize_frames req = .ok fs → fs ≠ [])
    ∧ (∀ e, _normalize_frames req = .error e →
        e = .missingFrames
        ∧ (req.frames = none ∨ req.frames = some [])
        ∧ (req.image = none ∨ req.image = some "" ∨ req.metadata = none)) := by
  refine ⟨?_, ?_, ?_, ?_⟩
  · intro fs hfs hne
    cases fs with
    | nil => exact absurd rfl hne
    | cons f fs' => simp [_normalize_frames, hfs]
  · exact fun s m hf hi hs hm => normalize_frames_fallback_ok req s m hf hi hs hm
  · intro fs h
    simp only [_normalize_frames] at h
    repeat' split at h
    all_goals intro h0
    all_goals subst h0
    all_goals simp_all
  · intro e h
    have hfrd : req.frames = none ∨ req.frames = some [] := by
      have h' := h
      simp only [_normalize_frames] at h'
      cases hfr : req.frames with
      | none => exact Or.inl rfl
      | some l =>
        cases l with
        | nil => exact Or.inr rfl
        | cons f fs' => rw [hfr] at h'; simp at h'
    refine ⟨normalize_frames_error_missing req e h, hfrd, ?_⟩
    by_cases hinone : req.image = none
    · exact Or.inl hinone
    obtain ⟨s, himg⟩ := Option.ne_none_iff_exists'.mp hinone
    by_cases hmnone : req.metadata = none
    · exact Or.inr (Or.inr hmnone)
    obtain ⟨m, hmd⟩ := Option.ne_none_iff_exists'.mp hmnone
    by_cases hs : s = ""
    · subst hs
      exact Or.inr (Or.inl himg)
    · exfalso
      have hok := normalize_frames_fallback_ok req s m hfrd himg hs hmd
      rw [hok] at h
      simp at h

/-- Witness for C10: the both-shapes request keeps its frames list; the
single-frame request is wrapped into a one-element list. -/
theorem normalize_frames_spec_witness :
    _normalize_frames sampleBothReq = .ok [sampleFrame, sampleFrame]
    ∧ _normalize_frames sampleSingleReq = .ok [FrameData.mk "aW1hZ2U=" sampleMetadata] :=
  ⟨(normalize_frames_spec sampleBothReq).1 [sampleFrame, sampleFrame] rfl (by simp),
    (normalize_frames_spec sampleSingleReq).2.1 "aW1hZ2U=" sampleMetadata
      (Or.inl rfl) rfl (by decide) rfl⟩

/-- C9 counterexample: constructing an annotation whose `frame_index` does not
reference an existing frame of the request succeeds — `frame_index = 2`
passes pydantic validation even though the concrete single-frame request
normalizes to exactly 1 frame (valid indices being only 0). -/
theorem annot_frame_index_unchecked :
    (∃ a, mkAnnot (some 2) 50 50 10 10 0 "hdr" = some a ∧ a.frame_index = 2)
    ∧ (∃ fs, _normalize_frames sampleSingleReq = .ok fs ∧ fs.length = 1)
    ∧ ¬((2 : Int) < 1) := by
  refine ⟨⟨⟨2, 50, 50, 10, 10, 0, "hdr"⟩, by decide, rfl⟩, ⟨_, rfl, rfl⟩, by omega⟩

/-- C9 amended: annotation construction fails exactly when one of the four
percentage fields leaves `[0, 100]`, `issue_index` is negative, or
`frame_index` is negative; `frame_index` defaults to 0 and every constructed
annotation satisfies the declared bounds — but `frame_index` is not checked
against the request's frame count. -/
theorem annot_bounds (fi : Option Int) (x y w h : Rat) (ii : Int) (lab : String) :
    (mkAnnot fi x y w h ii lab = none ↔
      ¬(0 ≤ fi.getD 0 ∧ 0 ≤ x ∧ x ≤ 100 ∧ 0 ≤ y ∧ y ≤ 100 ∧
        0 ≤ w ∧ w ≤ 100 ∧ 0 ≤ h ∧ h ≤ 100 ∧ 0 ≤ ii))
    ∧ (∀ a, mkAnnot none x y w h ii lab = some a → a.frame_index = 0)
    ∧ (∀ a, mkAnnot fi x y w h ii lab = some a →
        0 ≤ a.frame_index ∧ 0 ≤ a.x_pct ∧ a.x_pct ≤ 100 ∧ 0 ≤ a.y_pct ∧ a.y_pct ≤ 100 ∧
          0 ≤ a.width_pct ∧ a.width_pct ≤ 100 ∧ 0 ≤ a.height_pct ∧ a.height_pct ≤ 100 ∧
          0 ≤ a.issue_index) := by
  refine ⟨?_, ?_, ?_⟩
  · by_cases hc : (0 ≤ fi.getD 0 ∧ 0 ≤ x ∧ x ≤ 100 ∧ 0 ≤ y ∧ y ≤ 100 ∧
        0 ≤ w ∧ w ≤ 100 ∧ 0 ≤ h ∧ h ≤ 100 ∧ 0 ≤ ii) <;>
      simp [mkAnnot, hc]
  · intro a ha
    by_cases hc : (0 ≤ (none : Option Int).getD 0 ∧ 0 ≤ x ∧ x ≤ 100 ∧ 0 ≤ y ∧ y ≤ 100 ∧
        0 ≤ w ∧ w ≤ 100 ∧ 0 ≤ h ∧ h ≤ 100 ∧ 0 ≤ ii)
    · simp only [mkAnnot, if_pos hc] at ha
      have hae := Option.some.inj ha
      subst hae
      rfl
    · simp only [mkAnnot, if_neg hc] at ha
      exact absurd ha (by simp)
  · intro a ha
    by_cases hc : (0 ≤ fi.getD 0 ∧ 0 ≤ x ∧ x ≤ 100 ∧ 0 ≤ y ∧ y ≤ 100 ∧
        0 ≤ w ∧ w ≤ 100 ∧ 0 ≤ h ∧ h ≤ 100 ∧ 0 ≤ ii)
    · simp only [mkAnnot, if_pos hc] at ha
      have hae := Option.some.inj ha
      subst hae
      exact hc
    · simp only [mkAnnot, if_neg hc] at ha
      exact absurd ha (by simp)

/-- Witness for C9: out-of-range `x_pct = 101` and negative `issue_index = -1`
are rejected; omitting `frame_index` defaults it to 0. -/
theorem annot_bounds_witness :
    mkAnnot (some 0) 101 50 10 10 0 "hdr" = none
    ∧ mkAnnot (some 0) 50 50 10 10 (-1) "hdr" = none
    ∧ (∃ a, mkAnnot none 50 50 10 10 0 "x" = some a ∧ a.frame_index = 0) := by
  refine ⟨(annot_bounds (some 0) 101 50 10 10 0 "hdr").1.mpr (by decide),
    (annot_bounds (some 0) 50 50 10 10 (-1) "hdr").1.mpr (by decide), ?_⟩
  have ha : mkAnnot none 50 50 10 10 0 "x" = some ⟨0, 50, 50, 10, 10, 0, "x"⟩ := by decide
  exact ⟨_, ha, (annot_bounds none 50 50 10 10 0 "x").2.1 _ ha⟩

end FigmaCC
